import Mathlib

/-!
Verification of the reliable-UDP protocol engine (nest-udp).

This file gives a shallow embedding, in Lean 4, of the core of the
`ReliableUdpSocket` reliability layer:

* the flag byte codec and envelope construction
  (`src/lib/helpers/reliable-udp-socket/message-envelope.handler.ts`),
* the chunker / reassembler
  (`src/lib/helpers/reliable-udp-socket/chunking.handler.ts`),
* the request tracker (`RequestTracker`),
* the compression pipeline
  (`src/lib/helpers/reliable-udp-socket/compression.handler.ts`),
* the snowflake identifier generator
  (`src/lib/helpers/reliable-udp-socket/snowflake-id.generator.ts`),
* the send and receive paths of the protocol engine
  (`src/lib/helpers/reliable-udp-socket/reliable-udp-socket.ts`).

Modelling conventions, used throughout:

* JavaScript strings that carry payload data are modelled as their UTF-8
  byte sequences, `List Nat`; identifiers stay Lean `String`s.
* External library calls (SHA-256 hashing, base64 encoding/decoding, the
  compression codecs) are taken as explicit function parameters: the
  code under verification never inspects their output, it only moves it
  around, so every theorem is proved for an arbitrary choice of these
  functions.  They are modelled as total functions; a codec's `compress`
  returns an `Option` because the source wraps the call in try/catch.
* The JavaScript value `null` is reified (constructor `EnvBody.jsNull`)
  because the chunking handler uses `null` as the empty-slot sentinel in
  its own logic (`new Array(total).fill(null)`, `chunks[i] === null`).
  Wire envelope bodies are strings, `null`, or a non-string non-`null`
  JSON scalar (represented by `EnvBody.num`, e.g. the body `42`), which
  `Buffer.from(value, 'base64')` rejects by throwing — the behaviour the
  reassembler's try/catch turns into a `null` return.
* JavaScript truthiness tests that the source performs on strings and on
  the numeric codec enum are modelled exactly (`""` and codec `NONE = 0`
  are falsy).
* `Map` objects are modelled as association lists with first-match
  lookup; `Map.set` replaces the binding of an existing key in place.
-/

namespace ReliableUdp

/-! ## Message types, codec tags and the flag byte
Source: `reliable-udp-socket.types.ts` and `message-envelope.handler.ts`. -/

/-- `MessageType` enum: REQ = 0, ACK = 1, RES = 2 (2-bit values). -/
inductive MessageType where
  | req
  | ack
  | res
deriving DecidableEq

/-- Numeric value of the `MessageType` enum member. -/
def MessageType.code : MessageType → Nat
  | .req => 0
  | .ack => 1
  | .res => 2

/-- `CompressionCodecType` numeric enum: NONE = 0, GZIP = 1, SNAPPY = 2,
LZ4 = 3, ZSTD = 4 (`codec.interface.ts`); identical to the `CodecIndex`
enum used for bit-packing. -/
inductive CodecTag where
  | none
  | gzip
  | snappy
  | lz4
  | zstd
deriving DecidableEq

/-- Numeric value of the `CompressionCodecType` enum member. -/
def CodecTag.index : CodecTag → Nat
  | .none => 0
  | .gzip => 1
  | .snappy => 2
  | .lz4 => 3
  | .zstd => 4

/-- `INDEX_TO_CODEC[i] || CompressionCodecType.NONE`
(`message-envelope.handler.ts`, lines 19-25 and 74): array lookup with
out-of-range indices (and index 0 itself, which is falsy) collapsing to
`NONE`. -/
def indexToCodec : Nat → CodecTag
  | 0 => .none
  | 1 => .gzip
  | 2 => .snappy
  | 3 => .lz4
  | 4 => .zstd
  | _ => .none

/-- `FlagBits` constants (`reliable-udp-socket.types.ts`, lines 38-44). -/
def CODEC_MASK : Nat := 7

/-- Bit 3: compression flag. -/
def COMPRESSED : Nat := 8

/-- Bit 4: chunking flag. -/
def CHUNKED : Nat := 16

/-- Bits 5-6: message type mask. -/
def TYPE_MASK : Nat := 96

/-- Shift to extract type bits. -/
def TYPE_SHIFT : Nat := 5

/-- `MessageEnvelopeHandler.encodeFlags` (`message-envelope.handler.ts`,
lines 36-66).  `CompressionCodecType` is a numeric enum, so the
`typeof codec === 'number'` branch is taken and the codec's numeric
value itself is or-ed into bits 0-2. -/
def encodeFlags (type : MessageType) (codec : CodecTag)
    (isCompressed : Bool) (isChunked : Bool) : Nat :=
  let flags := codec.index
  let flags := if isCompressed then flags ||| COMPRESSED else flags
  let flags := if isChunked then flags ||| CHUNKED else flags
  flags ||| (type.code <<< TYPE_SHIFT)

/-- Result of `decodeFlags` (`DecodedFlags` in the source); `type` is the
raw 2-bit number extracted from the byte. -/
structure DecodedFlags where
  type : Nat
  codec : CodecTag
  isCompressed : Bool
  isChunked : Bool
deriving DecidableEq

/-- `MessageEnvelopeHandler.decodeFlags` (`message-envelope.handler.ts`,
lines 68-80); returns `undefined` when `flags` is `undefined`. -/
def decodeFlags : Option Nat → Option DecodedFlags
  | Option.none => Option.none
  | Option.some flags =>
    Option.some
      { type := (flags &&& TYPE_MASK) >>> TYPE_SHIFT
        codec := indexToCodec (flags &&& CODEC_MASK)
        isCompressed := (flags &&& COMPRESSED) != 0
        isChunked := (flags &&& CHUNKED) != 0 }


/-! ## Envelopes and the send path
Source: `message-envelope.handler.ts` (createEnvelope) and
`reliable-udp-socket.ts` (_sendMessageAsync, _sendSingleMessage,
_sendChunkedMessage), `chunking.handler.ts` (createChunks). -/

/-- A wire body value: a JavaScript string (modelled by its UTF-8
bytes), the JavaScript value `null`, or a non-string non-`null` JSON
scalar such as a number.  `null` is reified because the chunking handler
uses it as its empty-slot sentinel; `num` is reified because `parse`
admits any JSON value as `body` and `Buffer.from(value, 'base64')`
throws a TypeError on such scalars (numbers, booleans), which the
reassembler's try/catch turns into a `null` return. -/
inductive EnvBody where
  | str (bytes : List Nat)
  | jsNull
  | num (n : Int)
deriving DecidableEq

/-- JavaScript truthiness of an optional string (`undefined` and `""` are
falsy). -/
def jsTruthyStr : Option String → Bool
  | Option.none => false
  | Option.some s => s != ""

/-- `MessageEnvelope` (`reliable-udp-socket.types.ts`, lines 114-136).
The legacy `type` field is omitted: every envelope this engine produces
carries `flags`.  `ci` is an `Int` because it arrives from the wire as an
arbitrary JSON number. -/
structure Envelope where
  id : String
  body : EnvBody
  checksum : Option String
  flags : Option Nat
  ci : Option Int
  ct : Option Nat
  os : Option Nat
  cs : Option Nat
deriving DecidableEq

/-- `MessageEnvelopOptions` (`reliable-udp-socket.types.ts`, lines
172-181) with the source defaults of `createEnvelope`. -/
structure EnvelopeOptions where
  checksum : Option String := Option.none
  codec : CodecTag := CodecTag.none
  isCompressed : Bool := false
  isChunked : Bool := false
  chunkIndex : Option Int := Option.none
  chunkTotal : Option Nat := Option.none
  originalSize : Option Nat := Option.none
  compressedSize : Option Nat := Option.none

/-- `MessageEnvelopeHandler.createEnvelope` (`message-envelope.handler.ts`,
lines 105-143).  The `if (checksum)` guard is a truthiness test, `os`/`cs`
are attached only when `isCompressed`, and `ci`/`ct` only when
`isChunked` and both are defined. -/
def createEnvelope (id : String) (type : MessageType) (body : EnvBody)
    (options : EnvelopeOptions) : Envelope :=
  { id
    body
    flags := Option.some
      (encodeFlags type options.codec options.isCompressed options.isChunked)
    checksum := if jsTruthyStr options.checksum then options.checksum else Option.none
    os := if options.isCompressed then options.originalSize else Option.none
    cs := if options.isCompressed then options.compressedSize else Option.none
    ci := if options.isChunked && options.chunkIndex.isSome && options.chunkTotal.isSome
          then options.chunkIndex else Option.none
    ct := if options.isChunked && options.chunkIndex.isSome && options.chunkTotal.isSome
          then options.chunkTotal else Option.none }

/-- `CompressionResult` (`reliable-udp-socket.types.ts`, lines 138-143);
`data` is the base64 text produced by the codec, as bytes. -/
structure CompressionResult where
  data : List Nat
  codec : CodecTag
  originalSize : Nat
  compressedSize : Nat
deriving DecidableEq

/-- The engine configuration fields used by the send and receive paths
(`SocketConfig` plus the chunking handler's `chunkSize`). -/
structure SocketConfig where
  maxMessageSize : Nat
  maxRetries : Nat
  retryInterval : Nat
  enableChecksum : Bool
  chunkSize : Nat

/-- `ChunkingHandler.createChunks` (`chunking.handler.ts`, lines 24-39):
split a byte buffer into `ceil(length / chunkSize)` slices of
`chunkSize` bytes (the last one possibly shorter) and base64-encode each
slice.  `b64enc` models `Buffer.prototype.toString('base64')`.  Callers
guarantee `chunkSize` is positive (default 1200). -/
def createChunks (b64enc : List Nat → List Nat) (chunkSize : Nat)
    (buffer : List Nat) : List (List Nat) :=
  let totalChunks := (buffer.length + chunkSize - 1) / chunkSize
  (List.range totalChunks).map fun i =>
    b64enc ((buffer.drop (i * chunkSize)).take chunkSize)

/-- `_sendSingleMessage` (`reliable-udp-socket.ts`, lines 245-288),
restricted to the envelope it builds.  `sha256hex` models
`_calculateChecksum` (JSON-stringification of non-string bodies followed
by SHA-256, both external to the protocol logic). -/
def sendSingleEnvelope (cfg : SocketConfig) (sha256hex : EnvBody → String)
    (messageId : String) (body : EnvBody)
    (compressionResult : Option CompressionResult) : Envelope :=
  createEnvelope messageId MessageType.req body
    { checksum := if cfg.enableChecksum then Option.some (sha256hex body) else Option.none
      codec := (compressionResult.map (fun r => r.codec)).getD CodecTag.none
      isCompressed := compressionResult.isSome
      originalSize := compressionResult.map (fun r => r.originalSize)
      compressedSize := compressionResult.map (fun r => r.compressedSize) }

/-- `_sendChunkedMessage` (`reliable-udp-socket.ts`, lines 293-358),
restricted to the sequence of chunk envelopes it builds (in loop order).
Chunk `i` gets id `messageId ++ "-chunk-" ++ i`, the chunked flag,
`ci = i`, `ct = N`; only chunk 0 is marked compressed and carries the
size fields. -/
def sendChunkedEnvelopes (cfg : SocketConfig) (sha256hex : EnvBody → String)
    (b64enc : List Nat → List Nat) (messageId : String)
    (bodyBytes : List Nat)
    (compressionResult : Option CompressionResult) : List Envelope :=
  let chunks := createChunks b64enc cfg.chunkSize bodyBytes
  let codec := (compressionResult.map (fun r => r.codec)).getD CodecTag.none
  let isCompressed := compressionResult.isSome
  chunks.enum.map fun p =>
    createEnvelope (messageId ++ "-chunk-" ++ toString p.1) MessageType.req
      (EnvBody.str p.2)
      { checksum := if cfg.enableChecksum
                    then Option.some (sha256hex (EnvBody.str p.2)) else Option.none
        codec := codec
        isCompressed := isCompressed && p.1 == 0
        isChunked := true
        chunkIndex := Option.some (p.1 : Int)
        chunkTotal := Option.some chunks.length
        originalSize := if p.1 == 0
                        then compressionResult.map (fun r => r.originalSize)
                        else Option.none
        compressedSize := if p.1 == 0
                          then compressionResult.map (fun r => r.compressedSize)
                          else Option.none }

/-- The chunk-or-single decision of `_sendMessageAsync`
(`reliable-udp-socket.ts`, lines 211-236): `finalBytes` is the UTF-8
byte sequence of the final serialized body (the compressed base64 text
when compression was applied, the serialized payload otherwise), and its
length is compared against `maxMessageSize`. -/
def sendEnvelopes (cfg : SocketConfig) (sha256hex : EnvBody → String)
    (b64enc : List Nat → List Nat) (messageId : String)
    (finalBytes : List Nat)
    (compressionResult : Option CompressionResult) : List Envelope :=
  if finalBytes.length ≤ cfg.maxMessageSize then
    [sendSingleEnvelope cfg sha256hex messageId (EnvBody.str finalBytes) compressionResult]
  else
    sendChunkedEnvelopes cfg sha256hex b64enc messageId finalBytes compressionResult

/-! ## Chunked-message reassembly
Source: `chunking.handler.ts` (initAssembly, addChunk, getAssembledData,
removeAssembly). -/

/-- `ChunkedMessageAssembly` (`reliable-udp-socket.types.ts`, lines
154-163).  A slot holding `EnvBody.jsNull` is an empty slot — the source
fills the array with `null` and tests `chunks[i] === null`, and the same
`null` value can also arrive as chunk data from the wire.  The unused
`acksReceived` set and the `timestamp`/`remoteInfo` bookkeeping fields,
which none of the operations modelled here read, are omitted. -/
structure Assembly where
  chunks : List EnvBody
  totalChunks : Nat
  receivedCount : Nat
  compressionCodec : Option CodecTag
deriving DecidableEq

/-- The handler's `Map<string, ChunkedMessageAssembly>`, as an
association list with first-match lookup. -/
abbrev AssemblyMap : Type := List (String × Assembly)

/-- `Map.prototype.get`. -/
def amGet (m : AssemblyMap) (key : String) : Option Assembly :=
  match m with
  | [] => Option.none
  | (k, a) :: rest => if k = key then Option.some a else amGet rest key

/-- `Map.prototype.set`: replace the binding of an existing key in
place, otherwise append. -/
def amSet (m : AssemblyMap) (key : String) (a : Assembly) : AssemblyMap :=
  match m with
  | [] => [(key, a)]
  | (k, b) :: rest => if k = key then (k, a) :: rest else (k, b) :: amSet rest key a

/-- `Map.prototype.delete`. -/
def amDelete (m : AssemblyMap) (key : String) : AssemblyMap :=
  match m with
  | [] => []
  | (k, a) :: rest => if k = key then rest else (k, a) :: amDelete rest key

/-- `ChunkingHandler.initAssembly` (`chunking.handler.ts`, lines 41-56):
`new Array(totalChunks).fill(null)` with `receivedCount = 0` and the
codec recorded from the first-arriving chunk's flags. -/
def initAssembly (m : AssemblyMap) (messageId : String) (totalChunks : Nat)
    (compressionCodec : Option CodecTag) : AssemblyMap :=
  amSet m messageId
    { chunks := List.replicate totalChunks EnvBody.jsNull
      totalChunks := totalChunks
      receivedCount := 0
      compressionCodec := compressionCodec }

/-- `ChunkingHandler.addChunk` (`chunking.handler.ts`, lines 58-81).
Returns the updated map and the boolean
`receivedCount === totalChunks`.  The store happens only when
`chunks[chunkIndex] === null`: a negative or out-of-range index reads
`undefined`, which is not `null`, so nothing is stored; and a slot that
already holds non-`null` data is left alone.  `chunkIndex` is an `Int`
because it comes from an arbitrary JSON number on the wire. -/
def addChunk (m : AssemblyMap) (messageId : String) (chunkIndex : Int)
    (chunkData : EnvBody) : AssemblyMap × Bool :=
  match amGet m messageId with
  | Option.none => (m, false)
  | Option.some assembly =>
    let stored :=
      0 ≤ chunkIndex &&
        ((assembly.chunks.get? chunkIndex.toNat) == Option.some EnvBody.jsNull)
    if stored then
      let assembly' :=
        { assembly with
            chunks := assembly.chunks.set chunkIndex.toNat chunkData
            receivedCount := assembly.receivedCount + 1 }
      (amSet m messageId assembly',
        assembly'.receivedCount == assembly'.totalChunks)
    else
      (m, assembly.receivedCount == assembly.totalChunks)

/-- `Buffer.from(chunk as string, 'base64')` applied to one slot: it
decodes a string slot (`b64dec` models the successful decode) and
throws a TypeError — modelled as `Option.none` — on `null` and on
non-string scalars such as numbers. -/
def decodeSlot (b64dec : List Nat → List Nat) : EnvBody → Option (List Nat)
  | EnvBody.str bytes => Option.some (b64dec bytes)
  | EnvBody.jsNull => Option.none
  | EnvBody.num _ => Option.none

/-- The `assembly.chunks.map(chunk => Buffer.from(chunk as string,
'base64'))` call inside the source's try block: the list of decoded
buffers, or `Option.none` when any slot makes `Buffer.from` throw. -/
def decodeSlots (b64dec : List Nat → List Nat) :
    List EnvBody → Option (List (List Nat))
  | [] => Option.some []
  | c :: rest =>
    match decodeSlot b64dec c, decodeSlots b64dec rest with
    | Option.some b, Option.some bs => Option.some (b :: bs)
    | _, _ => Option.none

/-- `ChunkingHandler.getAssembledData` (`chunking.handler.ts`, lines
83-121): `null` unless the assembly exists, `receivedCount ===
totalChunks`, and no slot is `null`; then the try block base64-decodes
every slot and concatenates them in slot order together with the
recorded codec — and the catch turns a decode throw (a non-string slot)
into a `null` return. -/
def getAssembledData (b64dec : List Nat → List Nat) (m : AssemblyMap)
    (messageId : String) : Option (List Nat × Option CodecTag) :=
  match amGet m messageId with
  | Option.none => Option.none
  | Option.some assembly =>
    if assembly.receivedCount != assembly.totalChunks then Option.none
    else if assembly.chunks.any (fun c => c == EnvBody.jsNull) then Option.none
    else
      match decodeSlots b64dec assembly.chunks with
      | Option.none => Option.none
      | Option.some buffers =>
        Option.some (buffers.flatten, assembly.compressionCodec)

/-- `ChunkingHandler.removeAssembly` (`chunking.handler.ts`, lines
127-129), restricted to the resulting map. -/
def removeAssembly (m : AssemblyMap) (messageId : String) : AssemblyMap :=
  amDelete m messageId

/-- One call against the chunking handler's public mutating interface,
used to state invariants over arbitrary call sequences. -/
inductive ChunkOp where
  | init (messageId : String) (totalChunks : Nat) (codec : Option CodecTag)
  | add (messageId : String) (chunkIndex : Int) (chunkData : EnvBody)

/-- Run one `ChunkOp` against the assembly map. -/
def applyChunkOp (m : AssemblyMap) : ChunkOp → AssemblyMap
  | ChunkOp.init messageId totalChunks codec => initAssembly m messageId totalChunks codec
  | ChunkOp.add messageId chunkIndex chunkData => (addChunk m messageId chunkIndex chunkData).1

/-- Run a sequence of `ChunkOp`s left to right. -/
def applyChunkOps (m : AssemblyMap) (ops : List ChunkOp) : AssemblyMap :=
  ops.foldl applyChunkOp m

/-- Whether a `ChunkOp` adds non-`null` chunk data (`init` operations
carry no data). -/
def chunkOpDataNonNull : ChunkOp → Bool
  | ChunkOp.init _ _ _ => true
  | ChunkOp.add _ _ d => d != EnvBody.jsNull

/-- The reassembly bookkeeping invariant: `receivedCount` counts exactly
the filled (non-`null`) slots, and `totalChunks` is the slot count. -/
def AssemblyInv (a : Assembly) : Prop :=
  a.receivedCount + a.chunks.count EnvBody.jsNull = a.chunks.length ∧
    a.totalChunks = a.chunks.length

/-- Every assembly in the map satisfies `AssemblyInv`. -/
def AssemblyMapInv (m : AssemblyMap) : Prop :=
  ∀ e ∈ m, AssemblyInv e.2

/-! ## Request tracker
Source: `request-tracker.ts` (`RequestTracker.invokeAndRemove` and the
primitive operations it performs, in source order). -/

/-- The timer state of a `ResponseHandler` (`reliable-udp-socket.types.ts`,
lines 145-152).  Only the presence of the two timers matters to
`invokeAndRemove`; callback identity, `ackReceived`, `retryCount` and
`timestamp` are not read by it. -/
structure TrackedHandler where
  hasRetryTimer : Bool
  hasTimeoutTimer : Bool
deriving DecidableEq

/-- The tracker's `Map<string, ResponseHandler>`. -/
abbrev TrackerMap : Type := List (String × TrackedHandler)

/-- `Map.prototype.get` on the tracker map. -/
def tmGet (m : TrackerMap) (key : String) : Option TrackedHandler :=
  match m with
  | [] => Option.none
  | (k, h) :: rest => if k = key then Option.some h else tmGet rest key

/-- `Map.prototype.delete` on the tracker map. -/
def tmDelete (m : TrackerMap) (key : String) : TrackerMap :=
  match m with
  | [] => []
  | (k, h) :: rest => if k = key then rest else (k, h) :: tmDelete rest key

/-- The primitive effects `invokeAndRemove` performs, in order:
cancelling a timer, running the application callback, logging a caught
callback exception, deleting the map entry. -/
inductive TrackerEvent where
  | clearRetryTimerEv
  | clearTimeoutEv
  | invokeCallbackEv
  | logCallbackErrorEv
  | deleteEntryEv
deriving DecidableEq

/-- `RequestTracker.invokeAndRemove` (`request-tracker.ts`, lines
83-104), as the trace of primitive effects it performs in source order
together with the resulting map and its boolean return value.
`callbackThrows` says whether the application callback throws; the
source catches and logs the exception and continues to the delete, which
the trace reflects. -/
def invokeAndRemove (m : TrackerMap) (messageId : String)
    (callbackThrows : Bool) : TrackerMap × Bool × List TrackerEvent :=
  match tmGet m messageId with
  | Option.none => (m, false, [])
  | Option.some handler =>
    let retryEvs := if handler.hasRetryTimer then [TrackerEvent.clearRetryTimerEv] else []
    let timeoutEvs := if handler.hasTimeoutTimer then [TrackerEvent.clearTimeoutEv] else []
    let callbackEvs := if callbackThrows
      then [TrackerEvent.invokeCallbackEv, TrackerEvent.logCallbackErrorEv]
      else [TrackerEvent.invokeCallbackEv]
    (tmDelete m messageId, true,
      retryEvs ++ timeoutEvs ++ callbackEvs ++ [TrackerEvent.deleteEntryEv])

/-- Index of the first occurrence of an event in a trace. -/
def firstIdx (e : TrackerEvent) : List TrackerEvent → Option Nat
  | [] => Option.none
  | x :: rest =>
    if x = e then Option.some 0
    else (firstIdx e rest).map (fun i => i + 1)

/-- Whether the first occurrence of `a` strictly precedes the first
occurrence of `b` in the trace (false when either is absent). -/
def eventPrecedes (a b : TrackerEvent) (trace : List TrackerEvent) : Bool :=
  match firstIdx a trace, firstIdx b trace with
  | Option.some i, Option.some j => i < j
  | _, _ => false

/-! ## Compression pipeline
Source: `compression.handler.ts` (shouldCompress, tryCompress) and
`compression/index.ts` (CompressionFactory). -/

/-- A registered codec's `compress` entry point; `Option.none` models a
thrown error (the source wraps the call in try/catch). -/
structure Codec where
  compress : List Nat → Option (List Nat)

/-- `CompressionHandlerConfig` (`reliable-udp-socket.types.ts`, lines
81-87).  `minReduction` is a JavaScript number; it is modelled as a
rational. -/
structure CompressionCfg where
  enabled : Bool
  codec : CodecTag
  level : Nat
  minSize : Nat
  minReduction : ℚ

/-- `CompressionHandler.shouldCompress` (`compression.handler.ts`, lines
51-53): `enabled && size >= minSize`. -/
def shouldCompress (cfg : CompressionCfg) (size : Nat) : Bool :=
  cfg.enabled && decide (cfg.minSize ≤ size)

/-- `CompressionHandler.tryCompress` (`compression.handler.ts`, lines
55-102).  `factoryGet` models `CompressionFactory.get` (the registry
holds only available codecs, so an unavailable codec yields
`Option.none`); `b64enc` models `Buffer.prototype.toString('base64')`.
The input is the UTF-8 byte sequence of the JSON string, so
`originalSize = jsonBytes.length`.  The reduction percentage is the
source formula `(1 - compressedSize / originalSize) * 100` over the
rationals. -/
def tryCompress (factoryGet : CodecTag → Option Codec)
    (b64enc : List Nat → List Nat) (cfg : CompressionCfg)
    (jsonBytes : List Nat) : Option CompressionResult :=
  if !cfg.enabled then Option.none
  else
    let originalSize := jsonBytes.length
    if originalSize < cfg.minSize then Option.none
    else
      match factoryGet cfg.codec with
      | Option.none => Option.none
      | Option.some codec =>
        match codec.compress jsonBytes with
        | Option.none => Option.none
        | Option.some compressed =>
          let compressedSize := compressed.length
          let reduction : ℚ :=
            (1 - (compressedSize : ℚ) / (originalSize : ℚ)) * 100
          if cfg.minReduction ≤ reduction then
            Option.some
              { data := b64enc compressed
                codec := cfg.codec
                originalSize := originalSize
                compressedSize := compressedSize }
          else Option.none

/-! ## Snowflake identifiers
Source: `snowflake-id.generator.ts` and
`reliable-udp-socket.constants.ts` (lines 640-660). -/

/-- `SNOWFLAKE_WORKER_ID_SHIFT = SNOWFLAKE_SEQUENCE_BITS = 12`. -/
def SNOWFLAKE_WORKER_ID_SHIFT : Nat := 12

/-- `SNOWFLAKE_TIMESTAMP_SHIFT = 10 + 12 = 22`. -/
def SNOWFLAKE_TIMESTAMP_SHIFT : Nat := 22

/-- `SNOWFLAKE_MAX_WORKER_ID = 2^10 - 1`. -/
def SNOWFLAKE_MAX_WORKER_ID : Nat := 1023

/-- `SNOWFLAKE_MAX_SEQUENCE = 2^12 - 1`. -/
def SNOWFLAKE_MAX_SEQUENCE : Nat := 4095

/-- The packing step of `SnowflakeIdGenerator.generate`
(`snowflake-id.generator.ts`, lines 63-67):
`((timestamp - epoch) << 22) | (workerId << 12) | sequence` over
BigInt.  `generate` returns the decimal string of this value. -/
def snowflakeCompose (epoch workerId sequence timestamp : Nat) : Nat :=
  ((timestamp - epoch) <<< SNOWFLAKE_TIMESTAMP_SHIFT) |||
    (workerId <<< SNOWFLAKE_WORKER_ID_SHIFT) ||| sequence

/-- The components recovered by `SnowflakeIdGenerator.parse`. -/
structure ParsedSnowflake where
  timestamp : Nat
  workerId : Nat
  sequence : Nat
deriving DecidableEq

/-- `SnowflakeIdGenerator.parse` (`snowflake-id.generator.ts`, lines
80-96), on the numeric value of the id (`BigInt` applied to the decimal
string produced by `generate` recovers exactly the composed value, so
the string step is the identity here). -/
def snowflakeParse (epoch snowflakeId : Nat) : ParsedSnowflake :=
  { sequence := snowflakeId &&& SNOWFLAKE_MAX_SEQUENCE
    workerId := (snowflakeId >>> SNOWFLAKE_WORKER_ID_SHIFT) &&& SNOWFLAKE_MAX_WORKER_ID
    timestamp := (snowflakeId >>> SNOWFLAKE_TIMESTAMP_SHIFT) + epoch }

/-! ## Receive path for REQ envelopes
Source: `reliable-udp-socket.ts` (_handleRequest, _handleSingleRequest,
_handleChunkedRequest, _sendAcknowledgement). -/

/-- The character sequence of the `'-chunk-'` separator. -/
def chunkSep : List Char := ['-', 'c', 'h', 'u', 'n', 'k', '-']

/-- Characters of `id.split('-chunk-')[0]`: the prefix of the id before
the first occurrence of the separator (the whole id when the separator
does not occur). -/
def baseIdChars : List Char → List Char
  | [] => []
  | c :: rest =>
    if chunkSep.isPrefixOf (c :: rest) then [] else c :: baseIdChars rest

/-- `req.id.split('-chunk-')[0]` (`reliable-udp-socket.ts`, line 487). -/
def baseIdOf (id : String) : String := String.mk (baseIdChars id.data)

/-- JavaScript truthiness of an optional codec tag: `undefined` and the
numeric enum value `NONE = 0` are falsy. -/
def jsTruthyCodec : Option CodecTag → Bool
  | Option.none => false
  | Option.some c => c != CodecTag.none

/-- The externally observable steps of the REQ receive path, in order:
emitting the ACK datagram, touching the assembly map for a chunk,
running a decompression, delivering a message to the application. -/
inductive ReceiveAction where
  | sendAckA (ack : Envelope)
  | assemblyWorkA
  | decompressWorkA
  | deliverA
deriving DecidableEq

/-- `_handleSingleRequest` (`reliable-udp-socket.ts`, lines 467-481):
decompress when the decoded flags carry a non-`NONE` codec, then deliver
(a failed decompression still delivers the stringified `null`). -/
def handleSingleRequest (req : Envelope) : List ReceiveAction :=
  match decodeFlags req.flags with
  | Option.some f =>
    if f.codec != CodecTag.none
    then [ReceiveAction.decompressWorkA, ReceiveAction.deliverA]
    else [ReceiveAction.deliverA]
  | Option.none => [ReceiveAction.deliverA]

/-- `_handleChunkedRequest` (`reliable-udp-socket.ts`, lines 483-520):
create the assembly on first contact with the base id (recording the
codec from this chunk's flags), add the chunk, and on completion
reassemble, drop the assembly, decompress when a truthy codec was
recorded, and deliver. -/
def handleChunkedRequest (b64dec : List Nat → List Nat) (m : AssemblyMap)
    (req : Envelope) (ci : Int) (ct : Nat) : AssemblyMap × List ReceiveAction :=
  let baseId := baseIdOf req.id
  let flags := decodeFlags req.flags
  let m1 := if (amGet m baseId).isNone
            then initAssembly m baseId ct (flags.map (fun f => f.codec))
            else m
  let step := addChunk m1 baseId ci req.body
  if step.2 then
    match getAssembledData b64dec step.1 baseId with
    | Option.none => (step.1, [ReceiveAction.assemblyWorkA])
    | Option.some assembled =>
      let m3 := removeAssembly step.1 baseId
      if jsTruthyCodec assembled.2 then
        (m3, [ReceiveAction.assemblyWorkA, ReceiveAction.decompressWorkA,
              ReceiveAction.deliverA])
      else
        (m3, [ReceiveAction.assemblyWorkA, ReceiveAction.deliverA])
  else (step.1, [ReceiveAction.assemblyWorkA])

/-- `_handleRequest` (`reliable-udp-socket.ts`, lines 446-465): when
checksums are enabled and the envelope carries a truthy checksum that
differs from the recomputed digest, return silently; otherwise emit the
ACK envelope (id mirrored, type ACK, `null` body) and then process the
request as chunked (when both `ci` and `ct` are present) or single. -/
def handleRequest (cfg : SocketConfig) (sha256hex : EnvBody → String)
    (b64dec : List Nat → List Nat) (m : AssemblyMap)
    (req : Envelope) : AssemblyMap × List ReceiveAction :=
  if cfg.enableChecksum && jsTruthyStr req.checksum &&
      (sha256hex req.body != req.checksum.getD "") then
    (m, [])
  else
    let ack := createEnvelope req.id MessageType.ack EnvBody.jsNull {}
    match req.ci, req.ct with
    | Option.some ci, Option.some ct =>
      let step := handleChunkedRequest b64dec m req ci ct
      (step.1, ReceiveAction.sendAckA ack :: step.2)
    | _, _ => (m, ReceiveAction.sendAckA ack :: handleSingleRequest req)

end ReliableUdp

namespace ReliableUdp

/-! ## Helper lemmas -/

/-- Bitwise or of a left-shifted value with a value that fits entirely
below the shift is addition. -/
theorem lor_shiftLeft_eq_add :
    ∀ (n a b : ℕ), b < 2 ^ n → (a <<< n) ||| b = a * 2 ^ n + b := by
  intro n
  induction n with
  | zero =>
    intro a b hb
    interval_cases b
    simp [Nat.shiftLeft_eq]
  | succ n ih =>
    intro a b hb
    have hb2 : b / 2 < 2 ^ n := by
      rw [Nat.pow_succ] at hb; omega
    calc (a <<< (n + 1)) ||| b
        = Nat.bit false (a <<< n) ||| Nat.bit (decide (b % 2 = 1)) (b / 2) := by
          have h1 : a <<< (n + 1) = Nat.bit false (a <<< n) := by
            simp [Nat.bit_val, Nat.shiftLeft_eq, Nat.pow_succ]; ring
          have h2 : Nat.bit (decide (b % 2 = 1)) (b / 2) = b := by
            rcases Nat.mod_two_eq_zero_or_one b with h | h <;>
              simp [Nat.bit_val, h] <;> omega
          rw [h1, h2]
      _ = Nat.bit (false || decide (b % 2 = 1)) ((a <<< n) ||| b / 2) := Nat.lor_bit ..
      _ = 2 * ((a <<< n) ||| b / 2) + (decide (b % 2 = 1)).toNat := by
          simp [Nat.bit_val]
      _ = 2 * (a * 2 ^ n + b / 2) + (decide (b % 2 = 1)).toNat := by
          rw [ih a (b / 2) hb2]
      _ = a * 2 ^ (n + 1) + b := by
          rcases Nat.mod_two_eq_zero_or_one b with h | h <;>
            simp [h, Nat.pow_succ] <;> ring_nf <;> omega

/-- Decoding the byte built by `encodeFlags` recovers its components
(numeric type code, codec tag, and the two boolean flags). -/
theorem decode_encode_flags (t : MessageType) (c : CodecTag) (comp chk : Bool) :
    decodeFlags (Option.some (encodeFlags t c comp chk)) =
      Option.some ⟨t.code, c, comp, chk⟩ := by
  cases t <;> cases c <;> cases comp <;> cases chk <;> decide

end ReliableUdp

/-- Claim C2: for every message type in REQ/ACK/RES, every codec index in
NONE = 0, GZIP = 1, SNAPPY = 2, LZ4 = 3, ZSTD = 4 and every pair of
booleans (compressed, chunked), `decodeFlags` applied to
`encodeFlags type codec compressed chunked` returns exactly the tuple
(type, codec, compressed, chunked). -/
theorem ReliableUdp.c2_flags_roundtrip
    (t : ReliableUdp.MessageType) (c : ReliableUdp.CodecTag) (comp chk : Bool) :
    ReliableUdp.decodeFlags (Option.some (ReliableUdp.encodeFlags t c comp chk)) =
      Option.some ⟨t.code, c, comp, chk⟩ :=
  ReliableUdp.decode_encode_flags t c comp chk

/-- Claim C8: for every timestamp with `0 ≤ ts - epoch < 2^41`, every
worker id below 1024 and every sequence below 4096, `parse` applied to
the value packed by `generate` — `((ts - epoch) << 22) | (workerId <<
12) | sequence`, transported as its decimal string, which `BigInt`
recovers exactly — returns exactly the original timestamp, worker id
and sequence. -/
theorem ReliableUdp.c8_snowflake_parse_roundtrip
    (epoch workerId sequence timestamp : Nat)
    (h1 : epoch ≤ timestamp) (h2 : timestamp - epoch < 2 ^ 41)
    (h3 : workerId < 1024) (h4 : sequence < 4096) :
    ReliableUdp.snowflakeParse epoch
        (ReliableUdp.snowflakeCompose epoch workerId sequence timestamp) =
      ⟨timestamp, workerId, sequence⟩ := by
  have hcompose : ReliableUdp.snowflakeCompose epoch workerId sequence timestamp =
      (timestamp - epoch) * 4194304 + workerId * 4096 + sequence := by
    unfold ReliableUdp.snowflakeCompose
    rw [ReliableUdp.SNOWFLAKE_TIMESTAMP_SHIFT, ReliableUdp.SNOWFLAKE_WORKER_ID_SHIFT]
    have hwid : workerId <<< 12 < 2 ^ 22 := by
      rw [Nat.shiftLeft_eq]
      have : (2 : ℕ) ^ 22 = 4194304 := by norm_num
      rw [this]
      have : (2 : ℕ) ^ 12 = 4096 := by norm_num
      omega
    rw [ReliableUdp.lor_shiftLeft_eq_add 22 (timestamp - epoch) (workerId <<< 12) hwid]
    have h12 : (2 : ℕ) ^ 12 = 4096 := by norm_num
    have h22 : (2 : ℕ) ^ 22 = 4194304 := by norm_num
    have hmul : (timestamp - epoch) * 2 ^ 22 + workerId <<< 12 =
        ((timestamp - epoch) * 1024 + workerId) <<< 12 := by
      rw [Nat.shiftLeft_eq, Nat.shiftLeft_eq, h12, h22]
      ring
    rw [hmul, ReliableUdp.lor_shiftLeft_eq_add 12 _ sequence (by rw [h12]; omega)]
    rw [h12]
    ring
  unfold ReliableUdp.snowflakeParse
  rw [hcompose]
  rw [ReliableUdp.SNOWFLAKE_MAX_SEQUENCE, ReliableUdp.SNOWFLAKE_MAX_WORKER_ID,
    ReliableUdp.SNOWFLAKE_WORKER_ID_SHIFT, ReliableUdp.SNOWFLAKE_TIMESTAMP_SHIFT]
  have e4095 : (4095 : ℕ) = 2 ^ 12 - 1 := by norm_num
  have e1023 : (1023 : ℕ) = 2 ^ 10 - 1 := by norm_num
  rw [e4095, e1023, Nat.and_pow_two_sub_one_eq_mod,
    Nat.shiftRight_eq_div_pow, Nat.shiftRight_eq_div_pow,
    Nat.and_pow_two_sub_one_eq_mod]
  simp only [ReliableUdp.ParsedSnowflake.mk.injEq]
  have h12 : (2 : ℕ) ^ 12 = 4096 := by norm_num
  have h10 : (2 : ℕ) ^ 10 = 1024 := by norm_num
  have h22 : (2 : ℕ) ^ 22 = 4194304 := by norm_num
  rw [h12, h10, h22]
  refine ⟨?_, ?_, ?_⟩ <;> omega

/-- Witness for C8 at the source defaults: epoch 2024-01-01, worker 3,
sequence 7, a timestamp 5 ms past the epoch. -/
theorem ReliableUdp.c8_snowflake_parse_roundtrip_witness :
    ReliableUdp.snowflakeParse 1704067200000
        (ReliableUdp.snowflakeCompose 1704067200000 3 7 1704067200005) =
      ⟨1704067200005, 3, 7⟩ :=
  ReliableUdp.c8_snowflake_parse_roundtrip 1704067200000 3 7 1704067200005
    (by decide) (by decide) (by decide) (by decide)

/-- Claim C3: a payload whose final serialized byte length is at most
`maxMessageSize` is sent as a single REQ envelope with the chunked flag
clear; a longer payload is split into `ceil(length / chunkSize)` chunk
envelopes (the Nat expression `(length + chunkSize - 1) / chunkSize`),
so with `chunkSize ≤ maxMessageSize` a payload of `maxMessageSize + 1`
bytes yields at least 2 chunks. -/
theorem ReliableUdp.c3_single_or_chunked
    (cfg : ReliableUdp.SocketConfig) (sha256hex : ReliableUdp.EnvBody → String)
    (b64enc : List Nat → List Nat) (messageId : String)
    (finalBytes : List Nat) (cr : Option ReliableUdp.CompressionResult)
    (hcs : 0 < cfg.chunkSize) :
    (finalBytes.length ≤ cfg.maxMessageSize →
      ∃ e, ReliableUdp.sendEnvelopes cfg sha256hex b64enc messageId finalBytes cr = [e] ∧
        ∃ d, ReliableUdp.decodeFlags e.flags = Option.some d ∧
          d.type = ReliableUdp.MessageType.req.code ∧ d.isChunked = false)
    ∧ (cfg.maxMessageSize < finalBytes.length →
      (ReliableUdp.sendEnvelopes cfg sha256hex b64enc messageId finalBytes cr).length =
        (finalBytes.length + cfg.chunkSize - 1) / cfg.chunkSize)
    ∧ (cfg.chunkSize ≤ cfg.maxMessageSize →
       finalBytes.length = cfg.maxMessageSize + 1 →
      2 ≤ (ReliableUdp.sendEnvelopes cfg sha256hex b64enc messageId finalBytes cr).length) := by
  have hchunklen : ∀ h : cfg.maxMessageSize < finalBytes.length,
      (ReliableUdp.sendEnvelopes cfg sha256hex b64enc messageId finalBytes cr).length =
        (finalBytes.length + cfg.chunkSize - 1) / cfg.chunkSize := by
    intro h
    rw [ReliableUdp.sendEnvelopes, if_neg (by omega)]
    simp [ReliableUdp.sendChunkedEnvelopes, ReliableUdp.createChunks]
  refine ⟨?_, hchunklen, ?_⟩
  · intro h
    rw [ReliableUdp.sendEnvelopes, if_pos h]
    refine ⟨_, rfl, ?_⟩
    have hf : (ReliableUdp.sendSingleEnvelope cfg sha256hex messageId
        (ReliableUdp.EnvBody.str finalBytes) cr).flags =
        Option.some (ReliableUdp.encodeFlags ReliableUdp.MessageType.req
          ((cr.map (fun r => r.codec)).getD ReliableUdp.CodecTag.none) cr.isSome false) := rfl
    rw [hf, ReliableUdp.decode_encode_flags]
    exact ⟨_, rfl, rfl, rfl⟩
  · intro hle hlen
    rw [hchunklen (by omega)]
    rw [Nat.le_div_iff_mul_le hcs]
    omega

/-- Witness for C3: chunk size 2 and max size 3; 4 bytes exceed the
maximum and are split into 2 chunks, while the nested boundary clause is
exercised with `maxMessageSize + 1 = 4` bytes. -/
theorem ReliableUdp.c3_single_or_chunked_witness :
    ((4 : Nat) ≤ 3 →
      ∃ e, ReliableUdp.sendEnvelopes ⟨3, 5, 500, false, 2⟩ (fun _ => "") id "base"
          [1, 2, 3, 4] Option.none = [e] ∧
        ∃ d, ReliableUdp.decodeFlags e.flags = Option.some d ∧
          d.type = ReliableUdp.MessageType.req.code ∧ d.isChunked = false)
    ∧ ((3 : Nat) < 4 →
      (ReliableUdp.sendEnvelopes ⟨3, 5, 500, false, 2⟩ (fun _ => "") id "base"
          [1, 2, 3, 4] Option.none).length = (4 + 2 - 1) / 2)
    ∧ ((2 : Nat) ≤ 3 → (4 : Nat) = 3 + 1 →
      2 ≤ (ReliableUdp.sendEnvelopes ⟨3, 5, 500, false, 2⟩ (fun _ => "") id "base"
          [1, 2, 3, 4] Option.none).length) :=
  ReliableUdp.c3_single_or_chunked ⟨3, 5, 500, false, 2⟩ (fun _ => "") id "base"
    [1, 2, 3, 4] Option.none (by decide)

/-- Claim C4: in a chunked send with compression applied, chunk `i` gets
id `base-chunk-i` with `ci = i` and `ct = N` (the number of chunk
envelopes), every chunk envelope carries the same codec bits (those of
the compression codec) in its flags byte, and the compressed flag bit
and the `os`/`cs` size fields are present on chunk index 0 only. -/
theorem ReliableUdp.c4_chunk_metadata
    (cfg : ReliableUdp.SocketConfig) (sha256hex : ReliableUdp.EnvBody → String)
    (b64enc : List Nat → List Nat) (baseId : String) (bodyBytes : List Nat)
    (r : ReliableUdp.CompressionResult)
    (i : Nat)
    (h : i < (ReliableUdp.sendChunkedEnvelopes cfg sha256hex b64enc baseId bodyBytes
        (Option.some r)).length) :
    ((ReliableUdp.sendChunkedEnvelopes cfg sha256hex b64enc baseId bodyBytes
        (Option.some r)).get ⟨i, h⟩).id = baseId ++ "-chunk-" ++ toString i
    ∧ ((ReliableUdp.sendChunkedEnvelopes cfg sha256hex b64enc baseId bodyBytes
        (Option.some r)).get ⟨i, h⟩).ci = Option.some (i : Int)
    ∧ ((ReliableUdp.sendChunkedEnvelopes cfg sha256hex b64enc baseId bodyBytes
        (Option.some r)).get ⟨i, h⟩).ct =
        Option.some (ReliableUdp.sendChunkedEnvelopes cfg sha256hex b64enc baseId
          bodyBytes (Option.some r)).length
    ∧ (∃ f, ((ReliableUdp.sendChunkedEnvelopes cfg sha256hex b64enc baseId bodyBytes
        (Option.some r)).get ⟨i, h⟩).flags = Option.some f ∧
        f &&& ReliableUdp.CODEC_MASK = r.codec.index ∧
        ((f &&& ReliableUdp.COMPRESSED ≠ 0) ↔ i = 0))
    ∧ ((ReliableUdp.sendChunkedEnvelopes cfg sha256hex b64enc baseId bodyBytes
        (Option.some r)).get ⟨i, h⟩).os =
        (if i = 0 then Option.some r.originalSize else Option.none)
    ∧ ((ReliableUdp.sendChunkedEnvelopes cfg sha256hex b64enc baseId bodyBytes
        (Option.some r)).get ⟨i, h⟩).cs =
        (if i = 0 then Option.some r.compressedSize else Option.none) := by
  have hlen : (ReliableUdp.sendChunkedEnvelopes cfg sha256hex b64enc baseId bodyBytes
      (Option.some r)).length =
      (ReliableUdp.createChunks b64enc cfg.chunkSize bodyBytes).length := by
    simp [ReliableUdp.sendChunkedEnvelopes]
  have hi : i < (ReliableUdp.createChunks b64enc cfg.chunkSize bodyBytes).length := by
    omega
  have hget : (ReliableUdp.sendChunkedEnvelopes cfg sha256hex b64enc baseId bodyBytes
      (Option.some r)).get ⟨i, h⟩ =
      ReliableUdp.createEnvelope (baseId ++ "-chunk-" ++ toString i)
        ReliableUdp.MessageType.req
        (ReliableUdp.EnvBody.str
          ((ReliableUdp.createChunks b64enc cfg.chunkSize bodyBytes).get ⟨i, hi⟩))
        { checksum := if cfg.enableChecksum
            then Option.some (sha256hex (ReliableUdp.EnvBody.str
              ((ReliableUdp.createChunks b64enc cfg.chunkSize bodyBytes).get ⟨i, hi⟩)))
            else Option.none
          codec := r.codec
          isCompressed := true && i == 0
          isChunked := true
          chunkIndex := Option.some (i : Int)
          chunkTotal := Option.some
            (ReliableUdp.createChunks b64enc cfg.chunkSize bodyBytes).length
          originalSize := if i == 0 then Option.some r.originalSize else Option.none
          compressedSize := if i == 0 then Option.some r.compressedSize else Option.none } := by
    simp [ReliableUdp.sendChunkedEnvelopes, List.get_eq_getElem,
      List.getElem_map, List.getElem_enum]
  rw [hget, hlen]
  by_cases hi0 : i = 0
  · subst hi0
    refine ⟨rfl, ?_, ?_, ?_, ?_, ?_⟩ <;>
      simp [ReliableUdp.createEnvelope] <;>
      cases r.codec <;> decide
  · have hbeq : (i == 0) = false := by simp [hi0]
    refine ⟨rfl, ?_, ?_, ?_, ?_, ?_⟩ <;>
      simp [ReliableUdp.createEnvelope, hbeq, hi0] <;>
      cases r.codec <;> decide

/-- Witness for C4: a compressed 2-chunk send (chunk size 2, 3 body
bytes), inspected at chunk index 1. -/
theorem ReliableUdp.c4_chunk_metadata_witness :
    ((ReliableUdp.sendChunkedEnvelopes ⟨3, 5, 500, false, 2⟩ (fun _ => "") id "b"
        [1, 2, 3] (Option.some ⟨[9], ReliableUdp.CodecTag.gzip, 300, 30⟩)).get
          ⟨1, by decide⟩).id = "b" ++ "-chunk-" ++ toString 1
    ∧ ((ReliableUdp.sendChunkedEnvelopes ⟨3, 5, 500, false, 2⟩ (fun _ => "") id "b"
        [1, 2, 3] (Option.some ⟨[9], ReliableUdp.CodecTag.gzip, 300, 30⟩)).get
          ⟨1, by decide⟩).ci = Option.some (1 : Int)
    ∧ ((ReliableUdp.sendChunkedEnvelopes ⟨3, 5, 500, false, 2⟩ (fun _ => "") id "b"
        [1, 2, 3] (Option.some ⟨[9], ReliableUdp.CodecTag.gzip, 300, 30⟩)).get
          ⟨1, by decide⟩).ct =
        Option.some (ReliableUdp.sendChunkedEnvelopes ⟨3, 5, 500, false, 2⟩
          (fun _ => "") id "b" [1, 2, 3]
          (Option.some ⟨[9], ReliableUdp.CodecTag.gzip, 300, 30⟩)).length
    ∧ (∃ f, ((ReliableUdp.sendChunkedEnvelopes ⟨3, 5, 500, false, 2⟩ (fun _ => "") id "b"
        [1, 2, 3] (Option.some ⟨[9], ReliableUdp.CodecTag.gzip, 300, 30⟩)).get
          ⟨1, by decide⟩).flags = Option.some f ∧
        f &&& ReliableUdp.CODEC_MASK = ReliableUdp.CodecTag.gzip.index ∧
        ((f &&& ReliableUdp.COMPRESSED ≠ 0) ↔ 1 = 0))
    ∧ ((ReliableUdp.sendChunkedEnvelopes ⟨3, 5, 500, false, 2⟩ (fun _ => "") id "b"
        [1, 2, 3] (Option.some ⟨[9], ReliableUdp.CodecTag.gzip, 300, 30⟩)).get
          ⟨1, by decide⟩).os = (if 1 = 0 then Option.some 300 else Option.none)
    ∧ ((ReliableUdp.sendChunkedEnvelopes ⟨3, 5, 500, false, 2⟩ (fun _ => "") id "b"
        [1, 2, 3] (Option.some ⟨[9], ReliableUdp.CodecTag.gzip, 300, 30⟩)).get
          ⟨1, by decide⟩).cs = (if 1 = 0 then Option.some 30 else Option.none) :=
  ReliableUdp.c4_chunk_metadata ⟨3, 5, 500, false, 2⟩ (fun _ => "") id "b"
    [1, 2, 3] ⟨[9], ReliableUdp.CodecTag.gzip, 300, 30⟩ 1 (by decide)

namespace ReliableUdp

/-- Setting a `null` slot to a non-`null` value decreases the `null`
count by exactly one. -/
theorem count_jsNull_set (l : List EnvBody) :
    ∀ (i : Nat) (d : EnvBody), d ≠ EnvBody.jsNull →
      l.get? i = Option.some EnvBody.jsNull →
      (l.set i d).count EnvBody.jsNull + 1 = l.count EnvBody.jsNull := by
  induction l with
  | nil => intro i d _ hg; simp at hg
  | cons x xs ih =>
    intro i d hd hg
    cases i with
    | zero =>
      simp only [List.get?] at hg
      injection hg with hg
      subst hg
      simp [List.count_cons, hd]
    | succ n =>
      simp only [List.get?] at hg
      have := ih n d hd hg
      simp only [List.set, List.count_cons]
      omega

/-- A successful `amGet` returns a member of the association list. -/
theorem amGet_mem (m : AssemblyMap) (k : String) (a : Assembly)
    (h : amGet m k = Option.some a) : (k, a) ∈ m := by
  induction m with
  | nil => simp [amGet] at h
  | cons e rest ih =>
    obtain ⟨ek, ea⟩ := e
    rw [amGet] at h
    by_cases hk : ek = k
    · rw [if_pos hk] at h
      injection h with h
      subst h
      subst hk
      exact List.mem_cons_self ..
    · rw [if_neg hk] at h
      exact List.mem_cons_of_mem _ (ih h)

/-- Every member of `amSet m k a` is `(k, a)` or a member of `m`. -/
theorem mem_amSet (m : AssemblyMap) (k : String) (a : Assembly) :
    ∀ e ∈ amSet m k a, e = (k, a) ∨ e ∈ m := by
  induction m with
  | nil => intro e he; simp [amSet] at he; simp [he]
  | cons x rest ih =>
    intro e he
    rw [amSet] at he
    by_cases hk : x.1 = k
    · rw [if_pos hk] at he
      rcases List.mem_cons.mp he with h | h
      · left; rw [h, hk]
      · right; exact List.mem_cons_of_mem _ h
    · rw [if_neg hk] at he
      rcases List.mem_cons.mp he with h | h
      · right; rw [h]; exact List.mem_cons_self ..
      · rcases ih e h with h2 | h2
        · left; exact h2
        · right; exact List.mem_cons_of_mem _ h2

/-- `amSet` preserves the map invariant when the new assembly satisfies
it. -/
theorem amSet_inv (m : AssemblyMap) (k : String) (a : Assembly)
    (hm : AssemblyMapInv m) (ha : AssemblyInv a) :
    AssemblyMapInv (amSet m k a) := by
  intro e he
  rcases mem_amSet m k a e he with h | h
  · rw [h]; exact ha
  · exact hm e h

/-- `initAssembly` preserves the map invariant. -/
theorem initAssembly_inv (m : AssemblyMap) (messageId : String)
    (totalChunks : Nat) (codec : Option CodecTag)
    (hm : AssemblyMapInv m) :
    AssemblyMapInv (initAssembly m messageId totalChunks codec) := by
  refine amSet_inv m messageId _ hm ?_
  constructor
  · simp [List.count_replicate]
  · simp

/-- `addChunk` with non-`null` chunk data preserves the map
invariant. -/
theorem addChunk_inv (m : AssemblyMap) (messageId : String)
    (chunkIndex : Int) (chunkData : EnvBody)
    (hm : AssemblyMapInv m) (hd : chunkData ≠ EnvBody.jsNull) :
    AssemblyMapInv (addChunk m messageId chunkIndex chunkData).1 := by
  cases hget : amGet m messageId with
  | none => simp only [addChunk, hget]; exact hm
  | some a =>
    simp only [addChunk, hget]
    by_cases hstored :
        (decide (0 ≤ chunkIndex) &&
          ((a.chunks.get? chunkIndex.toNat) == Option.some EnvBody.jsNull)) = true
    · rw [if_pos hstored]
      have hslot : a.chunks.get? chunkIndex.toNat = Option.some EnvBody.jsNull := by
        have := (Bool.and_eq_true ..).mp hstored
        exact eq_of_beq this.2
      have hainv : AssemblyInv a := hm (messageId, a) (amGet_mem m messageId a hget)
      refine amSet_inv m messageId _ hm ?_
      constructor
      · have hcount := count_jsNull_set a.chunks chunkIndex.toNat chunkData hd hslot
        have hlen : (a.chunks.set chunkIndex.toNat chunkData).length = a.chunks.length :=
          List.length_set ..
        have h1 := hainv.1
        simp only [List.length_set]
        omega
      · simp only [List.length_set]
        exact hainv.2
    · rw [if_neg hstored]
      exact hm

/-- Running any sequence of `init`/`add` calls whose added data is
non-`null` preserves the map invariant. -/
theorem applyChunkOps_inv (ops : List ChunkOp) :
    ∀ (m : AssemblyMap), AssemblyMapInv m →
      (∀ op ∈ ops, chunkOpDataNonNull op = true) →
      AssemblyMapInv (applyChunkOps m ops) := by
  induction ops with
  | nil => intro m hm _; exact hm
  | cons op rest ih =>
    intro m hm hops
    rw [applyChunkOps, List.foldl_cons]
    refine ih (applyChunkOp m op) ?_ (fun o ho => hops o (List.mem_cons_of_mem _ ho))
    cases op with
    | init messageId totalChunks codec =>
      exact initAssembly_inv m messageId totalChunks codec hm
    | add messageId chunkIndex chunkData =>
      have hnn := hops _ (List.mem_cons_self ..)
      rw [chunkOpDataNonNull] at hnn
      exact addChunk_inv m messageId chunkIndex chunkData hm (by simpa using hnn)

end ReliableUdp

/-- Claim C5 (amended): for every assembly and every index `i` at which a
non-`null` chunk has already been stored, a second `addChunk` call at
`(id, i)` with any data leaves the map (slots and `receivedCount`)
unchanged and merely reports whether `receivedCount` equals `total`;
and after every sequence of `initAssembly`/`addChunk` calls in which all
added chunk data is non-`null`, every assembly satisfies
`receivedCount ≤ totalChunks`.  (The non-`null` provisos are forced by
the counterexample: the source tests `chunks[i] === null`, and `null`
chunk data re-opens the slot.) -/
theorem ReliableUdp.c5_addChunk_idempotent_and_bounded :
    (∀ (m : ReliableUdp.AssemblyMap) (messageId : String) (i : Int)
        (a : ReliableUdp.Assembly) (d d' : ReliableUdp.EnvBody),
      ReliableUdp.amGet m messageId = Option.some a →
      a.chunks.get? i.toNat = Option.some d → d ≠ ReliableUdp.EnvBody.jsNull →
      ReliableUdp.addChunk m messageId i d' =
        (m, a.receivedCount == a.totalChunks))
    ∧ (∀ (ops : List ReliableUdp.ChunkOp),
      (∀ op ∈ ops, ReliableUdp.chunkOpDataNonNull op = true) →
      ∀ (messageId : String) (a : ReliableUdp.Assembly),
        ReliableUdp.amGet (ReliableUdp.applyChunkOps [] ops) messageId =
          Option.some a →
        a.receivedCount ≤ a.totalChunks) := by
  constructor
  · intro m messageId i a d d' hget hslot hd
    have hslot2 : a.chunks[i.toNat]? = Option.some d := by
      rw [← List.get?_eq_getElem?]
      exact hslot
    simp [ReliableUdp.addChunk, hget, hslot2, hd]
  · intro ops hops messageId a hget
    have hinv : ReliableUdp.AssemblyMapInv (ReliableUdp.applyChunkOps [] ops) :=
      ReliableUdp.applyChunkOps_inv ops [] (by intro e he; simp at he) hops
    have ha : ReliableUdp.AssemblyInv a :=
      hinv (messageId, a) (ReliableUdp.amGet_mem _ messageId a hget)
    have h1 := ha.1
    have h2 := ha.2
    omega

/-- Witness for C5: re-adding at an index already holding a non-`null`
chunk is a no-op, and a non-`null` init/add sequence keeps
`receivedCount ≤ totalChunks`. -/
theorem ReliableUdp.c5_addChunk_idempotent_and_bounded_witness :
    (ReliableUdp.addChunk
        [("m", ⟨[ReliableUdp.EnvBody.str [7]], 1, 1, Option.none⟩)] "m" 0
        (ReliableUdp.EnvBody.str [9]) =
      ([("m", ⟨[ReliableUdp.EnvBody.str [7]], 1, 1, Option.none⟩)], true))
    ∧ (1 : Nat) ≤ 1 :=
  ⟨ReliableUdp.c5_addChunk_idempotent_and_bounded.1
      [("m", ⟨[ReliableUdp.EnvBody.str [7]], 1, 1, Option.none⟩)] "m" 0
      ⟨[ReliableUdp.EnvBody.str [7]], 1, 1, Option.none⟩
      (ReliableUdp.EnvBody.str [7]) (ReliableUdp.EnvBody.str [9])
      (by decide) (by decide) (by decide),
    ReliableUdp.c5_addChunk_idempotent_and_bounded.2
      [ReliableUdp.ChunkOp.init "m" 1 Option.none,
        ReliableUdp.ChunkOp.add "m" 0 (ReliableUdp.EnvBody.str [7])]
      (by decide) "m" ⟨[ReliableUdp.EnvBody.str [7]], 1, 1, Option.none⟩
      (by decide)⟩

/-- Counterexample to C5 as stated: chunk data can be the JavaScript
value `null` (a parsed envelope body), and `null` is also the handler's
empty-slot sentinel.  After `initAssembly` with one slot, a first
`addChunk` at index 0 with `null` data executes the store branch
(`receivedCount` becomes 1) yet leaves the slot "empty", so a second
`addChunk` at the same index stores again: `receivedCount` changes to 2
and `receivedCount ≤ totalChunks` fails. -/
theorem ReliableUdp.c5_addChunk_null_counterexample :
    ReliableUdp.applyChunkOps []
        [ReliableUdp.ChunkOp.init "m" 1 Option.none,
          ReliableUdp.ChunkOp.add "m" 0 ReliableUdp.EnvBody.jsNull] =
      [("m", ⟨[ReliableUdp.EnvBody.jsNull], 1, 1, Option.none⟩)]
    ∧ ReliableUdp.applyChunkOps []
        [ReliableUdp.ChunkOp.init "m" 1 Option.none,
          ReliableUdp.ChunkOp.add "m" 0 ReliableUdp.EnvBody.jsNull,
          ReliableUdp.ChunkOp.add "m" 0 (ReliableUdp.EnvBody.str [7])] =
      [("m", ⟨[ReliableUdp.EnvBody.str [7]], 1, 2, Option.none⟩)]
    ∧ ¬ ((2 : Nat) ≤ 1) := by
  refine ⟨by decide, by decide, by decide⟩

/-- Claim C10: for an existing assembly whose slot array length equals
`totalChunks`, an `addChunk` call with an index outside `[0, total)`
changes nothing and returns whether `receivedCount` already equals
`totalChunks`: out-of-range indices read `undefined`, never `null`, so
the store branch is not taken. -/
theorem ReliableUdp.c10_out_of_range_ignored
    (m : ReliableUdp.AssemblyMap) (messageId : String) (i : Int)
    (d : ReliableUdp.EnvBody) (a : ReliableUdp.Assembly)
    (hget : ReliableUdp.amGet m messageId = Option.some a)
    (hlen : a.chunks.length = a.totalChunks)
    (hout : i < 0 ∨ (a.totalChunks : Int) ≤ i) :
    ReliableUdp.addChunk m messageId i d =
      (m, a.receivedCount == a.totalChunks) := by
  rcases hout with hneg | hbig
  · have : ¬ (0 ≤ i) := by omega
    simp [ReliableUdp.addChunk, hget, this]
  · have hnone : a.chunks[i.toNat]? = Option.none := by
      rw [List.getElem?_eq_none_iff]
      omega
    simp [ReliableUdp.addChunk, hget, hnone]

/-- Witness for C10: index 5 against a one-slot assembly is ignored. -/
theorem ReliableUdp.c10_out_of_range_ignored_witness :
    ReliableUdp.addChunk
        [("m", ⟨[ReliableUdp.EnvBody.jsNull], 1, 0, Option.none⟩)] "m" 5
        (ReliableUdp.EnvBody.str [1]) =
      ([("m", ⟨[ReliableUdp.EnvBody.jsNull], 1, 0, Option.none⟩)], false) :=
  ReliableUdp.c10_out_of_range_ignored
    [("m", ⟨[ReliableUdp.EnvBody.jsNull], 1, 0, Option.none⟩)] "m" 5
    (ReliableUdp.EnvBody.str [1])
    ⟨[ReliableUdp.EnvBody.jsNull], 1, 0, Option.none⟩
    (by decide) (by decide) (Or.inr (by decide))

namespace ReliableUdp

/-- `tmGet` misses keys that are absent from the association list. -/
theorem tmGet_eq_none_of_not_mem (m : TrackerMap) (k : String)
    (h : k ∉ m.map Prod.fst) : tmGet m k = Option.none := by
  induction m with
  | nil => rfl
  | cons e rest ih =>
    rw [tmGet]
    rw [List.map_cons, List.mem_cons] at h
    push_neg at h
    rw [if_neg (fun he => h.1 he.symm)]
    exact ih h.2

/-- With duplicate-free keys (as a JavaScript `Map` guarantees),
deleting a key makes it unreachable. -/
theorem tmGet_tmDelete (m : TrackerMap) (k : String)
    (hnd : (m.map Prod.fst).Nodup) : tmGet (tmDelete m k) k = Option.none := by
  induction m with
  | nil => rfl
  | cons e rest ih =>
    rw [List.map_cons, List.nodup_cons] at hnd
    rw [tmDelete]
    by_cases hk : e.1 = k
    · rw [if_pos hk]
      exact tmGet_eq_none_of_not_mem rest k (hk ▸ hnd.1)
    · rw [if_neg hk]
      rw [tmGet, if_neg hk]
      exact ih hnd.2

end ReliableUdp

/-- Claim C7 (amended): for every tracked request id, `invokeAndRemove`
returns true, cancels the retry timer and the timeout timer (each
before the callback runs), invokes the callback exactly once, and
removes the tracker map entry immediately AFTER the callback returns —
not before it, so the callback still observes its own entry — with a
throwing callback caught (logged) and the removal still performed. -/
theorem ReliableUdp.c7_invoke_and_remove
    (m : ReliableUdp.TrackerMap) (messageId : String)
    (h : ReliableUdp.TrackedHandler) (callbackThrows : Bool)
    (hnd : (m.map Prod.fst).Nodup)
    (hget : ReliableUdp.tmGet m messageId = Option.some h) :
    (ReliableUdp.invokeAndRemove m messageId callbackThrows).2.1 = true
    ∧ ReliableUdp.tmGet
        (ReliableUdp.invokeAndRemove m messageId callbackThrows).1 messageId =
        Option.none
    ∧ (h.hasRetryTimer = true →
        ReliableUdp.eventPrecedes ReliableUdp.TrackerEvent.clearRetryTimerEv
          ReliableUdp.TrackerEvent.invokeCallbackEv
          (ReliableUdp.invokeAndRemove m messageId callbackThrows).2.2 = true)
    ∧ (h.hasTimeoutTimer = true →
        ReliableUdp.eventPrecedes ReliableUdp.TrackerEvent.clearTimeoutEv
          ReliableUdp.TrackerEvent.invokeCallbackEv
          (ReliableUdp.invokeAndRemove m messageId callbackThrows).2.2 = true)
    ∧ (ReliableUdp.invokeAndRemove m messageId callbackThrows).2.2.count
        ReliableUdp.TrackerEvent.invokeCallbackEv = 1
    ∧ ReliableUdp.eventPrecedes ReliableUdp.TrackerEvent.invokeCallbackEv
        ReliableUdp.TrackerEvent.deleteEntryEv
        (ReliableUdp.invokeAndRemove m messageId callbackThrows).2.2 = true
    ∧ ReliableUdp.eventPrecedes ReliableUdp.TrackerEvent.deleteEntryEv
        ReliableUdp.TrackerEvent.invokeCallbackEv
        (ReliableUdp.invokeAndRemove m messageId callbackThrows).2.2 = false := by
  obtain ⟨hr, ht⟩ := h
  simp only [ReliableUdp.invokeAndRemove, hget]
  cases hr <;> cases ht <;> cases callbackThrows <;>
    exact ⟨trivial, ReliableUdp.tmGet_tmDelete m messageId hnd,
      by decide, by decide, by decide, by decide, by decide⟩

/-- Witness for C7 at a one-entry tracker with both timers armed and a
throwing callback. -/
theorem ReliableUdp.c7_invoke_and_remove_witness :
    (ReliableUdp.invokeAndRemove [("a", ⟨true, true⟩)] "a" true).2.1 = true
    ∧ ReliableUdp.tmGet
        (ReliableUdp.invokeAndRemove [("a", ⟨true, true⟩)] "a" true).1 "a" =
        Option.none
    ∧ ((true : Bool) = true →
        ReliableUdp.eventPrecedes ReliableUdp.TrackerEvent.clearRetryTimerEv
          ReliableUdp.TrackerEvent.invokeCallbackEv
          (ReliableUdp.invokeAndRemove [("a", ⟨true, true⟩)] "a" true).2.2 = true)
    ∧ ((true : Bool) = true →
        ReliableUdp.eventPrecedes ReliableUdp.TrackerEvent.clearTimeoutEv
          ReliableUdp.TrackerEvent.invokeCallbackEv
          (ReliableUdp.invokeAndRemove [("a", ⟨true, true⟩)] "a" true).2.2 = true)
    ∧ (ReliableUdp.invokeAndRemove [("a", ⟨true, true⟩)] "a" true).2.2.count
        ReliableUdp.TrackerEvent.invokeCallbackEv = 1
    ∧ ReliableUdp.eventPrecedes ReliableUdp.TrackerEvent.invokeCallbackEv
        ReliableUdp.TrackerEvent.deleteEntryEv
        (ReliableUdp.invokeAndRemove [("a", ⟨true, true⟩)] "a" true).2.2 = true
    ∧ ReliableUdp.eventPrecedes ReliableUdp.TrackerEvent.deleteEntryEv
        ReliableUdp.TrackerEvent.invokeCallbackEv
        (ReliableUdp.invokeAndRemove [("a", ⟨true, true⟩)] "a" true).2.2 = false :=
  ReliableUdp.c7_invoke_and_remove [("a", ⟨true, true⟩)] "a" ⟨true, true⟩ true
    (by decide) (by decide)

/-- Counterexample to C7 as stated: at a tracked id with both timers
armed, the callback does fire (exactly once), but the map deletion does
not precede the callback invocation in the effect trace —
`RequestTracker.invokeAndRemove` deletes the entry only after
`handler.callback(response)` returns, so the callback can still observe
its own entry. -/
theorem ReliableUdp.c7_removed_before_callback_counterexample :
    (ReliableUdp.invokeAndRemove [("a", ⟨true, true⟩)] "a" false).2.2.count
        ReliableUdp.TrackerEvent.invokeCallbackEv = 1
    ∧ ReliableUdp.eventPrecedes ReliableUdp.TrackerEvent.deleteEntryEv
        ReliableUdp.TrackerEvent.invokeCallbackEv
        (ReliableUdp.invokeAndRemove [("a", ⟨true, true⟩)] "a" false).2.2 = false := by
  decide

/-- Claim C9: `tryCompress` returns nothing exactly when compression is
disabled, the payload's byte length is below `minSize`, the configured
codec is unavailable in the factory, the codec's compress call fails, or
the observed reduction `(1 - compressedSize / originalSize) * 100` is
below `minReduction`; otherwise it returns the base64 of the compressed
bytes together with the codec and both sizes.  `shouldCompress size` is
true exactly when compression is enabled and `size ≥ minSize`.  The
`minSize ≥ 1` hypothesis keeps the reduction formula's denominator
positive (the source default is 256). -/
theorem ReliableUdp.c9_try_compress
    (factoryGet : ReliableUdp.CodecTag → Option ReliableUdp.Codec)
    (b64enc : List Nat → List Nat) (cfg : ReliableUdp.CompressionCfg)
    (jsonBytes : List Nat) (hmin : 1 ≤ cfg.minSize) :
    (ReliableUdp.tryCompress factoryGet b64enc cfg jsonBytes = Option.none ↔
      (cfg.enabled = false ∨ jsonBytes.length < cfg.minSize ∨
        factoryGet cfg.codec = Option.none ∨
        (∃ c, factoryGet cfg.codec = Option.some c ∧
          c.compress jsonBytes = Option.none) ∨
        (∃ c out, factoryGet cfg.codec = Option.some c ∧
          c.compress jsonBytes = Option.some out ∧
          (1 - (out.length : ℚ) / (jsonBytes.length : ℚ)) * 100 < cfg.minReduction)))
    ∧ (∀ r, ReliableUdp.tryCompress factoryGet b64enc cfg jsonBytes = Option.some r →
        ∃ c out, factoryGet cfg.codec = Option.some c ∧
          c.compress jsonBytes = Option.some out ∧
          r = ⟨b64enc out, cfg.codec, jsonBytes.length, out.length⟩)
    ∧ (∀ size, ReliableUdp.shouldCompress cfg size = true ↔
        (cfg.enabled = true ∧ cfg.minSize ≤ size)) := by
  refine ⟨?_, ?_, ?_⟩
  · cases henabled : cfg.enabled with
    | false => simp [ReliableUdp.tryCompress, henabled]
    | true =>
      by_cases hsize : jsonBytes.length < cfg.minSize
      · simp [ReliableUdp.tryCompress, henabled, hsize]
      · cases hcodec : factoryGet cfg.codec with
        | none => simp [ReliableUdp.tryCompress, henabled, hsize, hcodec]
        | some c =>
          cases hcomp : c.compress jsonBytes with
          | none => simp [ReliableUdp.tryCompress, henabled, hsize, hcodec, hcomp]
          | some out =>
            by_cases hred : cfg.minReduction ≤
                (1 - (out.length : ℚ) / (jsonBytes.length : ℚ)) * 100
            · simp [ReliableUdp.tryCompress, henabled, hsize, hcodec, hcomp, hred,
                not_lt.mpr hred]
            · simp [ReliableUdp.tryCompress, henabled, hsize, hcodec, hcomp, hred,
                not_le.mp hred]
  · intro r hr
    cases henabled : cfg.enabled with
    | false => simp [ReliableUdp.tryCompress, henabled] at hr
    | true =>
      by_cases hsize : jsonBytes.length < cfg.minSize
      · simp [ReliableUdp.tryCompress, henabled, hsize] at hr
      · cases hcodec : factoryGet cfg.codec with
        | none => simp [ReliableUdp.tryCompress, henabled, hsize, hcodec] at hr
        | some c =>
          cases hcomp : c.compress jsonBytes with
          | none => simp [ReliableUdp.tryCompress, henabled, hsize, hcodec, hcomp] at hr
          | some out =>
            by_cases hred : cfg.minReduction ≤
                (1 - (out.length : ℚ) / (jsonBytes.length : ℚ)) * 100
            · simp only [ReliableUdp.tryCompress, henabled, Bool.not_true,
                Bool.false_eq_true, if_false, hsize, hcodec, hcomp, if_pos hred] at hr
              refine ⟨c, out, rfl, hcomp, ?_⟩
              injection hr with hr
              exact hr.symm
            · simp [ReliableUdp.tryCompress, henabled, hsize, hcodec, hcomp, hred] at hr
  · intro size
    rw [ReliableUdp.shouldCompress]
    simp

/-- Witness for C9 with the source's default thresholds (minSize 256,
minReduction 10) and compression disabled, the engine's default. -/
theorem ReliableUdp.c9_try_compress_witness :
    (ReliableUdp.tryCompress (fun _ => Option.none) id
        ⟨false, ReliableUdp.CodecTag.none, 6, 256, 10⟩ [1, 2, 3] = Option.none ↔
      ((false : Bool) = false ∨ ([1, 2, 3] : List Nat).length < 256 ∨
        (fun (_ : ReliableUdp.CodecTag) => (Option.none : Option ReliableUdp.Codec))
          ReliableUdp.CodecTag.none = Option.none ∨
        (∃ c, (fun (_ : ReliableUdp.CodecTag) => (Option.none : Option ReliableUdp.Codec))
            ReliableUdp.CodecTag.none = Option.some c ∧
          c.compress [1, 2, 3] = Option.none) ∨
        (∃ c out, (fun (_ : ReliableUdp.CodecTag) => (Option.none : Option ReliableUdp.Codec))
            ReliableUdp.CodecTag.none = Option.some c ∧
          c.compress [1, 2, 3] = Option.some out ∧
          (1 - (out.length : ℚ) / (([1, 2, 3] : List Nat).length : ℚ)) * 100 < 10)))
    ∧ (∀ r, ReliableUdp.tryCompress (fun _ => Option.none) id
          ⟨false, ReliableUdp.CodecTag.none, 6, 256, 10⟩ [1, 2, 3] = Option.some r →
        ∃ c out, (fun (_ : ReliableUdp.CodecTag) => (Option.none : Option ReliableUdp.Codec))
            ReliableUdp.CodecTag.none = Option.some c ∧
          c.compress [1, 2, 3] = Option.some out ∧
          r = ⟨id out, ReliableUdp.CodecTag.none, ([1, 2, 3] : List Nat).length, out.length⟩)
    ∧ (∀ size, ReliableUdp.shouldCompress
          ⟨false, ReliableUdp.CodecTag.none, 6, 256, 10⟩ size = true ↔
        ((false : Bool) = true ∧ 256 ≤ size)) :=
  ReliableUdp.c9_try_compress (fun _ => Option.none) id
    ⟨false, ReliableUdp.CodecTag.none, 6, 256, 10⟩ [1, 2, 3] (by decide)

/-- Claim C1 (amended): for every incoming REQ envelope, if checksums are
enabled and the envelope carries a NON-EMPTY checksum that does not
match the digest recomputed over the body, the handler aborts silently
(no ACK, no delivery, no state change); otherwise an ACK envelope whose
id equals the REQ's id is emitted to the source before any assembly,
decompression or delivery work.  (The non-empty proviso is forced by the
counterexample: the source guard `enableChecksum && req.checksum` is a
truthiness test, so an empty-string checksum is never validated.) -/
theorem ReliableUdp.c1_ack_before_work
    (cfg : ReliableUdp.SocketConfig) (sha256hex : ReliableUdp.EnvBody → String)
    (b64dec : List Nat → List Nat) (m : ReliableUdp.AssemblyMap)
    (req : ReliableUdp.Envelope) :
    (∀ s, cfg.enableChecksum = true → req.checksum = Option.some s → s ≠ "" →
      sha256hex req.body ≠ s →
      ReliableUdp.handleRequest cfg sha256hex b64dec m req = (m, []))
    ∧ (¬ (cfg.enableChecksum = true ∧ ReliableUdp.jsTruthyStr req.checksum = true ∧
          sha256hex req.body ≠ req.checksum.getD "") →
      ∃ ack rest,
        (ReliableUdp.handleRequest cfg sha256hex b64dec m req).2 =
          ReliableUdp.ReceiveAction.sendAckA ack :: rest ∧ ack.id = req.id) := by
  constructor
  · intro s hen hcs hne hmatch
    have hguard : (cfg.enableChecksum && ReliableUdp.jsTruthyStr req.checksum &&
        (sha256hex req.body != req.checksum.getD "")) = true := by
      rw [hen, hcs]
      simp [ReliableUdp.jsTruthyStr, hne, hmatch]
    rw [ReliableUdp.handleRequest, if_pos hguard]
  · intro hng
    have hgf : (cfg.enableChecksum && ReliableUdp.jsTruthyStr req.checksum &&
        (sha256hex req.body != req.checksum.getD "")) = false := by
      cases hb : (cfg.enableChecksum && ReliableUdp.jsTruthyStr req.checksum &&
        (sha256hex req.body != req.checksum.getD "")) with
      | false => rfl
      | true =>
        exfalso
        apply hng
        have h1 := (Bool.and_eq_true ..).mp hb
        have h2 := (Bool.and_eq_true ..).mp h1.1
        exact ⟨h2.1, h2.2, bne_iff_ne.mp h1.2⟩
    rw [ReliableUdp.handleRequest, if_neg (by simp [hgf])]
    cases hci : req.ci with
    | none =>
      cases hct : req.ct with
      | none => exact ⟨_, _, rfl, rfl⟩
      | some ct => exact ⟨_, _, rfl, rfl⟩
    | some ci =>
      cases hct : req.ct with
      | none => exact ⟨_, _, rfl, rfl⟩
      | some ct => exact ⟨_, _, rfl, rfl⟩

/-- Witness for C1: a mismatching non-empty checksum aborts silently,
and a checksum-free REQ is ACKed first. -/
theorem ReliableUdp.c1_ack_before_work_witness :
    ReliableUdp.handleRequest ⟨1400, 5, 500, true, 1200⟩ (fun _ => "deadbeef") id []
        ⟨"id1", ReliableUdp.EnvBody.str [49], Option.some "beef", Option.some 0,
          Option.none, Option.none, Option.none, Option.none⟩ = ([], [])
    ∧ (∃ ack rest,
        (ReliableUdp.handleRequest ⟨1400, 5, 500, true, 1200⟩ (fun _ => "deadbeef") id []
          ⟨"id2", ReliableUdp.EnvBody.str [49], Option.none, Option.some 0,
            Option.none, Option.none, Option.none, Option.none⟩).2 =
          ReliableUdp.ReceiveAction.sendAckA ack :: rest ∧ ack.id = "id2") :=
  ⟨(ReliableUdp.c1_ack_before_work ⟨1400, 5, 500, true, 1200⟩ (fun _ => "deadbeef") id []
      ⟨"id1", ReliableUdp.EnvBody.str [49], Option.some "beef", Option.some 0,
        Option.none, Option.none, Option.none, Option.none⟩).1
      "beef" rfl rfl (by decide) (by decide),
    (ReliableUdp.c1_ack_before_work ⟨1400, 5, 500, true, 1200⟩ (fun _ => "deadbeef") id []
      ⟨"id2", ReliableUdp.EnvBody.str [49], Option.none, Option.some 0,
        Option.none, Option.none, Option.none, Option.none⟩).2
      (by decide)⟩

/-- Counterexample to C1 as stated: an envelope can carry the checksum
`""`, which never equals the recomputed hex digest, yet
`_handleRequest`'s truthiness guard (`enableChecksum && req.checksum`)
skips validation for it: instead of aborting silently with no ACK, the
handler acknowledges and delivers the REQ. -/
theorem ReliableUdp.c1_empty_checksum_counterexample :
    ((fun (_ : ReliableUdp.EnvBody) => "deadbeef") (ReliableUdp.EnvBody.str [49]) ≠ "")
    ∧ ReliableUdp.handleRequest ⟨1400, 5, 500, true, 1200⟩
        (fun _ => "deadbeef") id []
        ⟨"id1", ReliableUdp.EnvBody.str [49], Option.some "", Option.some 0,
          Option.none, Option.none, Option.none, Option.none⟩ =
      ([], [ReliableUdp.ReceiveAction.sendAckA
          (ReliableUdp.createEnvelope "id1" ReliableUdp.MessageType.ack
            ReliableUdp.EnvBody.jsNull {}),
        ReliableUdp.ReceiveAction.deliverA]) := by
  refine ⟨by decide, by decide⟩

namespace ReliableUdp

end ReliableUdp

